import Mathlib

/- A verification model of server.py from AsyncIt: an asyncio JSON
request server. Byte streams are lists of naturals below 256, the
handler registry is the set of registered request type names, and the
outcome of one awaited handler call is an oracle value, so that the
control flow of handle_connection, stop and write can be stated and
proved exactly as the source has it. -/

/-- The key string the dispatch code subscripts with. -/
def typeKey : String := "type"

/-- The reserved request type name that stops the server. -/
def terminateLit : String := "terminate"

/-- The per request timeout constant of server.py, in seconds. -/
def REQUEST_TIMEOUT : Nat := 5

/-- Model of asyncio StreamReader.readuntil with separator 13 10: it
returns the shortest prefix ending in the separator, the separator
included, together with the remaining bytes; none models the
IncompleteReadError raised when the stream ends before a separator
(the ConnectionError case is folded into the same outcome, as the
source catches the two together in one except clause). -/
def readuntil : List Nat → Option (List Nat × List Nat)
  | [] => none
  | [_] => none
  | b :: c :: rest =>
    if b = 13 ∧ c = 10 then some ([13, 10], rest)
    else
      match readuntil (c :: rest) with
      | none => none
      | some (f, r) => some (b :: f, r)

/-- Whether a byte list contains the two byte delimiter 13 10. -/
def hasCRLF : List Nat → Bool
  | [] => false
  | [_] => false
  | b :: c :: rest => if b = 13 ∧ c = 10 then true else hasCRLF (c :: rest)

theorem readuntil_spec (bs : List Nat) : ∀ f r, readuntil bs = some (f, r) →
    bs = f ++ r ∧ ∃ pre, f = pre ++ [13, 10] ∧ hasCRLF pre = false := by
  induction bs with
  | nil => intro f r h; simp [readuntil] at h
  | cons b t ih =>
    cases t with
    | nil => intro f r h; simp [readuntil] at h
    | cons c rest =>
      intro f r h
      simp only [readuntil] at h
      by_cases h13 : b = 13 ∧ c = 10
      · rw [if_pos h13] at h
        simp only [Option.some.injEq, Prod.mk.injEq] at h
        obtain ⟨hf, hr⟩ := h
        subst hf; subst hr
        obtain ⟨hb, hc⟩ := h13
        subst hb; subst hc
        exact ⟨rfl, [], rfl, rfl⟩
      · rw [if_neg h13] at h
        cases hru : readuntil (c :: rest) with
        | none => rw [hru] at h; simp at h
        | some p =>
          obtain ⟨f', r'⟩ := p
          rw [hru] at h
          simp only [Option.some.injEq, Prod.mk.injEq] at h
          obtain ⟨hf, hr⟩ := h
          subst hf; subst hr
          obtain ⟨hsplit, pre', hpre, hcrlf⟩ := ih f' r' hru
          refine ⟨by rw [List.cons_append, ← hsplit], b :: pre', by simp [hpre], ?_⟩
          cases pre' with
          | nil => rfl
          | cons c' l' =>
            have hc' : c' = c := by
              rw [hpre] at hsplit
              simp only [List.cons_append, List.cons.injEq] at hsplit
              exact hsplit.1.symm
            subst hc'
            simp only [hasCRLF, if_neg h13]
            exact hcrlf

theorem readuntil_none_of_no_crlf (bs : List Nat) :
    hasCRLF bs = false → readuntil bs = none := by
  induction bs with
  | nil => intro _; rfl
  | cons b t ih =>
    cases t with
    | nil => intro _; rfl
    | cons c rest =>
      intro h
      simp only [hasCRLF] at h
      by_cases h13 : b = 13 ∧ c = 10
      · rw [if_pos h13] at h; exact absurd h (by simp)
      · rw [if_neg h13] at h
        simp only [readuntil, if_neg h13, ih h]

theorem readuntil_rest_lt {stream f rest : List Nat}
    (h : readuntil stream = some (f, rest)) : rest.length < stream.length := by
  obtain ⟨hsplit, pre, hpre, _⟩ := readuntil_spec stream f rest h
  rw [hsplit, hpre]
  simp only [List.append_assoc, List.length_append, List.length_cons, List.length_nil]
  omega

/-- Model of bytes.decode with the ascii codec: it succeeds exactly
when every byte is below 128, and the decoded text is represented by
its code points, which equal the bytes. -/
def asciiDecode (bs : List Nat) : Option (List Nat) :=
  if bs.all (fun b => b < 128) then some bs else none

/-- A JSON value as returned by json.loads; numbers are collapsed to
Int, which is enough here because the dispatch logic never reads a
number beyond testing it against string keys. -/
inductive JValue where
  | null
  | bool (b : Bool)
  | num (n : Int)
  | str (s : String)
  | arr (elems : List JValue)
  | obj (fields : List (String × JValue))

/-- Key lookup in a decoded JSON object; json.loads builds a dict, so
a later duplicate key overwrites an earlier one. -/
def jsonLookup (fields : List (String × JValue)) (key : String) : Option JValue :=
  match fields with
  | [] => none
  | (k, v) :: rest =>
    match jsonLookup rest key with
    | some w => some w
    | none => if k = key then some v else none

/-- Model of the Python subscript with a string key on a decoded JSON
value: a dict lookup on objects, a KeyError when the key is absent, a
TypeError on every other value; both exceptions are the error case. -/
def jGetItem (v : JValue) (key : String) : Except Unit JValue :=
  match v with
  | JValue.obj fields =>
    match jsonLookup fields key with
    | some w => Except.ok w
    | none => Except.error ()
  | _ => Except.error ()

/-- Model of the comparison of the type field with the terminate
literal: a Python equality test against a string constant is true
exactly on that string value and false on every other JSON value. -/
def isTerminateType : JValue → Bool
  | JValue.str s => s == terminateLit
  | _ => false

/-- The string content of a JSON value when it is a string. -/
def JValue.asString : JValue → Option String
  | JValue.str s => some s
  | _ => none

/-- Model of funcs.get applied to the type value, where funcs is the
registry dict keyed by the registered type name strings: a string key
is looked up, a list or dict key raises TypeError (unhashable), and
any other key simply misses. -/
def dictGet (registry : String → Bool) (key : JValue) : Except Unit (Option String) :=
  match key with
  | JValue.str s => Except.ok (if registry s then some s else none)
  | JValue.arr _ => Except.error ()
  | JValue.obj _ => Except.error ()
  | _ => Except.ok none

/-- Outcome of the awaited drain call inside write. -/
inductive DrainResult where
  | ok
  | fail
deriving DecidableEq

/-- Outcome of one awaited handler call under wait_for: it returns, it
raises some exception, or the timeout expires and wait_for cancels the
call and raises TimeoutError. -/
inductive HOutcome where
  | ok
  | raise
  | timeout
deriving DecidableEq

/-- The mutable state of the server object that handle_connection,
stop and write read and update: the single shared writer reference,
the liveness flag, whether the event loop was stopped, and whether the
exit call was made. -/
structure LoopState where
  writer : Option Nat
  alive : Bool
  loopStopped : Bool
  exitCalled : Bool
deriving DecidableEq

/-- Observable effects of processing one frame: which handler was
invoked and the timeout passed to wait_for, whether a cancellation was
sent on expiry, and whether the dispatch code wrote a reply (the loop
in server.py contains no write call, so this field stays false). -/
structure Trace where
  invoked : Option String := none
  timeoutUsed : Option Nat := none
  cancelSent : Bool := false
  replied : Bool := false
deriving DecidableEq

/-- The statement message.replace in write: every percent character of
the message is replaced by two percent characters. -/
def escapePercent (message : String) : String :=
  String.mk ((message.data.map (fun c => if c = '%' then ['%', '%'] else [c])).flatten)

namespace AServer

/-- Model of AServer.stop: the event loop is stopped, the liveness
flag is cleared, and exit is called; the SystemExit that exit raises
is swallowed by the bare except of the dispatch loop, so control comes
back to the while test with the flag now false. -/
def stop (s : LoopState) : LoopState :=
  { s with loopStopped := true, alive := false, exitCalled := true }

/-- The first statement of the try block of handle_connection: the
shared writer field of the server object is set to the writer of the
newly accepted connection. -/
def attachWriter (s : LoopState) (wid : Nat) : LoopState :=
  { s with writer := some wid }

/-- The except clause of handle_connection for ConnectionError and
IncompleteReadError: the shared writer field is set back to none. -/
def onConnError (s : LoopState) : LoopState :=
  { s with writer := none }

/-- The body of the while loop of handle_connection for one frame as
returned by readuntil: decode as ascii (an undecodable frame just
continues the loop), parse as JSON, stop the server on the terminate
type, otherwise look the type up in the registry and await the handler
under wait_for; every exception of the inner try block is caught by
the bare except and discarded. The parse oracle stands for json.loads
and the houtcome oracle for the result of the awaited handler call. -/
def processFrame (registry : String → Bool) (houtcome : String → HOutcome)
    (parse : List Nat → Option JValue) (s : LoopState) (f : List Nat) :
    LoopState × Trace :=
  match asciiDecode f with
  | none => (s, {})
  | some text =>
    match parse text with
    | none => (s, {})
    | some v =>
      match jGetItem v typeKey with
      | Except.error _ => (s, {})
      | Except.ok tv =>
        if isTerminateType tv then
          (stop s, {})
        else
          match dictGet registry tv with
          | Except.error _ => (s, {})
          | Except.ok none => (s, {})
          | Except.ok (some nm) =>
            match houtcome nm with
            | HOutcome.ok => (s, { invoked := some nm, timeoutUsed := some REQUEST_TIMEOUT })
            | HOutcome.raise => (s, { invoked := some nm, timeoutUsed := some REQUEST_TIMEOUT })
            | HOutcome.timeout =>
              (s, { invoked := some nm, timeoutUsed := some REQUEST_TIMEOUT, cancelSent := true })

/-- The while loop of handle_connection over a finite byte stream (the
stream ends where the connection closes): while the liveness flag
holds, read one frame with readuntil and process it; when readuntil
fails the except clause clears the writer and the loop ends. The
result pairs the final server state with the list of frames read,
each with the trace of its dispatch. -/
def runLoop (registry : String → Bool) (houtcome : String → HOutcome)
    (parse : List Nat → Option JValue) (s : LoopState) (stream : List Nat) :
    LoopState × List (List Nat × Trace) :=
  if s.alive then
    match hr : readuntil stream with
    | none => (onConnError s, [])
    | some (f, rest) =>
      let p := processFrame registry houtcome parse s f
      let q := runLoop registry houtcome parse p.1 rest
      (q.1, (f, p.2) :: q.2)
  else (s, [])
  termination_by stream.length
  decreasing_by exact readuntil_rest_lt hr

/-- Model of AServer.handle_connection: attach the writer of the new
connection to the shared writer field, then run the read loop. -/
def handle_connection (registry : String → Bool) (houtcome : String → HOutcome)
    (parse : List Nat → Option JValue) (s : LoopState) (wid : Nat)
    (stream : List Nat) : LoopState × List (List Nat × Trace) :=
  runLoop registry houtcome parse (attachWriter s wid) stream

/-- Model of AServer.write: with no writer attached it returns False
at once; otherwise the message has its percent characters doubled, the
escaped bytes are submitted to the transport by the writer, and the
awaited drain decides the return value, its exception being caught.
The second component records what was submitted to the transport. -/
def write (s : LoopState) (message : String) (drain : DrainResult) :
    Bool × Option String :=
  if s.writer = none then
    (false, none)
  else
    match drain with
    | DrainResult.fail => (false, some (escapePercent message))
    | DrainResult.ok => (true, some (escapePercent message))

end AServer

/-- A server state with a writer attached and the liveness flag set,
as handle_connection leaves it right after accepting a connection. -/
def sInit : LoopState :=
  { writer := some 0, alive := true, loopStopped := false, exitCalled := false }

/-- A decoded terminate request object. -/
def termObj : JValue := JValue.obj [(typeKey, JValue.str terminateLit)]

theorem runLoop_dead (registry : String → Bool) (houtcome : String → HOutcome)
    (parse : List Nat → Option JValue) (s : LoopState) (stream : List Nat)
    (h : s.alive = false) :
    AServer.runLoop registry houtcome parse s stream = (s, []) := by
  rw [AServer.runLoop.eq_def, h]
  simp

theorem runLoop_eof (registry : String → Bool) (houtcome : String → HOutcome)
    (parse : List Nat → Option JValue) (s : LoopState) (stream : List Nat)
    (ha : s.alive = true) (he : readuntil stream = none) :
    AServer.runLoop registry houtcome parse s stream = (AServer.onConnError s, []) := by
  rw [AServer.runLoop.eq_def, ha]
  simp only [if_true]
  split
  · rfl
  · rename_i f rest hr
    rw [he] at hr
    exact absurd hr (by simp)

theorem runLoop_step (registry : String → Bool) (houtcome : String → HOutcome)
    (parse : List Nat → Option JValue) (s : LoopState) (stream f rest : List Nat)
    (ha : s.alive = true) (hr : readuntil stream = some (f, rest)) :
    AServer.runLoop registry houtcome parse s stream =
      ((AServer.runLoop registry houtcome parse
          (AServer.processFrame registry houtcome parse s f).1 rest).1,
        (f, (AServer.processFrame registry houtcome parse s f).2) ::
          (AServer.runLoop registry houtcome parse
            (AServer.processFrame registry houtcome parse s f).1 rest).2) := by
  rw [AServer.runLoop.eq_def, ha]
  simp only [if_true]
  split
  · rename_i hn
    rw [hr] at hn
    exact absurd hn (by simp)
  · rename_i f' rest' hr'
    rw [hr] at hr'
    simp only [Option.some.injEq, Prod.mk.injEq] at hr'
    obtain ⟨hf, hrest⟩ := hr'
    subst hf; subst hrest
    rfl


/-- C1: write("100% done") through an attached writer submits the
escaped text "100%% done" to the transport, each percent doubled by
the replace step that precedes writer.write, so the client does not
receive the original text with each percent appearing exactly once. -/
theorem C1_percent_doubled_on_wire :
    AServer.write sInit ("100% done") DrainResult.ok = (true, some ("100%% done")) ∧
    some ("100%% done") ≠ some ("100% done") := by
  constructor
  · rfl
  · decide

/-- C2: for every registry (one registering the terminate name
included), every handler oracle and every parse oracle, a frame whose
JSON object carries the type value terminate stops the event loop,
clears the liveness flag and triggers the exit call, and no handler is
invoked for it. -/
theorem C2_terminate_stops_server (registry : String → Bool)
    (houtcome : String → HOutcome) (parse : List Nat → Option JValue)
    (s : LoopState) (f text : List Nat) (v : JValue)
    (hdec : asciiDecode f = some text)
    (hp : parse text = some v)
    (hty : jGetItem v typeKey = Except.ok (JValue.str terminateLit)) :
    AServer.processFrame registry houtcome parse s f = (AServer.stop s, {}) ∧
    (AServer.stop s).alive = false ∧
    (AServer.stop s).loopStopped = true ∧
    (AServer.stop s).exitCalled = true ∧
    (AServer.processFrame registry houtcome parse s f).2.invoked = none := by
  have hmain : AServer.processFrame registry houtcome parse s f = (AServer.stop s, {}) := by
    simp only [AServer.processFrame, hdec, hp, hty, isTerminateType, beq_self_eq_true, if_true]
  exact ⟨hmain, rfl, rfl, rfl, by rw [hmain]⟩

/-- C2 witness at a concrete frame, parse result and registry that
registers a handler under the terminate name. -/
theorem C2_terminate_witness :
    AServer.processFrame (fun nm => nm == terminateLit) (fun _ => HOutcome.ok)
        (fun _ => some termObj) sInit [13, 10] = (AServer.stop sInit, {}) ∧
    (AServer.stop sInit).alive = false ∧
    (AServer.stop sInit).loopStopped = true ∧
    (AServer.stop sInit).exitCalled = true ∧
    (AServer.processFrame (fun nm => nm == terminateLit) (fun _ => HOutcome.ok)
        (fun _ => some termObj) sInit [13, 10]).2.invoked = none :=
  C2_terminate_stops_server (fun nm => nm == terminateLit) (fun _ => HOutcome.ok)
    (fun _ => some termObj) sInit [13, 10] [13, 10] termObj rfl rfl rfl

/-- C3: write is a total function of the model, so no exception
escapes it; it returns true exactly when a writer is attached and the
drain succeeds, and with no writer attached it returns false with
nothing submitted to the transport. -/
theorem C3_write_never_raises (s : LoopState) (message : String) (d : DrainResult) :
    ((AServer.write s message d).1 = true ↔ s.writer ≠ none ∧ d = DrainResult.ok) ∧
    (s.writer = none → AServer.write s message d = (false, none)) := by
  unfold AServer.write
  by_cases hw : s.writer = none
  · simp [hw]
  · cases d <;> simp [hw]

/-- C3 witness at a concrete state, message and drain outcome. -/
theorem C3_write_witness :
    ((AServer.write sInit ("hello") DrainResult.ok).1 = true ↔
      sInit.writer ≠ none ∧ DrainResult.ok = DrainResult.ok) ∧
    (sInit.writer = none → AServer.write sInit ("hello") DrainResult.ok = (false, none)) :=
  C3_write_never_raises sInit ("hello") DrainResult.ok

/-- C4 counterexample: on the stream 123 125 13 10 the read loop hands
the dispatcher the frame 123 125 13 10, the two delimiter bytes
included, not the frame 123 125 that the claim describes. -/
theorem C4_frame_includes_delimiter_cex :
    (AServer.runLoop (fun _ => false) (fun _ => HOutcome.ok) (fun _ => none)
        sInit [123, 125, 13, 10]).2.map Prod.fst = [[123, 125, 13, 10]] ∧
    [[123, 125, 13, 10]] ≠ [[123, 125]] := by
  constructor
  · have h1 : AServer.processFrame (fun _ => false) (fun _ => HOutcome.ok)
        (fun _ => none) sInit [123, 125, 13, 10] = (sInit, {}) := rfl
    rw [runLoop_step (fun _ => false) (fun _ => HOutcome.ok) (fun _ => none)
        sInit [123, 125, 13, 10] [123, 125, 13, 10] [] rfl (by decide), h1]
    rw [runLoop_eof (fun _ => false) (fun _ => HOutcome.ok) (fun _ => none)
        (sInit, ({} : Trace)).1 [] rfl rfl]
    rfl
  · decide

/-- C4 as amended: a stream with no delimiter yields no frame, and a
yielded frame is a prefix of the stream that consists of the bytes up
to the first delimiter together with the two delimiter bytes, which
readuntil does include in what it hands on. -/
theorem C4_framing_amended (bs : List Nat) :
    (hasCRLF bs = false → readuntil bs = none) ∧
    (∀ f r, readuntil bs = some (f, r) →
      bs = f ++ r ∧ ∃ pre, f = pre ++ [13, 10] ∧ hasCRLF pre = false) :=
  ⟨readuntil_none_of_no_crlf bs, readuntil_spec bs⟩

/-- C4 witness at two concrete streams, one without and one with a
delimiter. -/
theorem C4_framing_witness :
    readuntil [104, 105] = none ∧
    ([104, 105, 13, 10, 55] = ([104, 105, 13, 10] : List Nat) ++ [55] ∧
      ∃ pre, ([104, 105, 13, 10] : List Nat) = pre ++ [13, 10] ∧ hasCRLF pre = false) :=
  ⟨(C4_framing_amended [104, 105]).1 (by decide),
   (C4_framing_amended [104, 105, 13, 10, 55]).2 [104, 105, 13, 10] [55] (by decide)⟩

/-- The trace of a dispatched handler call that returned or raised. -/
def dispatchTrace (nm : String) : Trace :=
  { invoked := some nm, timeoutUsed := some REQUEST_TIMEOUT }

/-- The trace of a dispatched handler call whose timeout expired. -/
def timeoutTrace (nm : String) : Trace :=
  { invoked := some nm, timeoutUsed := some REQUEST_TIMEOUT, cancelSent := true }

/-- A decoded ping request object and a registry that has exactly the
ping handler, for concrete witnesses. -/
def pingObj : JValue := JValue.obj [(typeKey, JValue.str ("ping"))]

/-- The registry with exactly one registered name, ping. -/
def pingOnly : String → Bool := fun nm => nm == ("ping")

/-- C5: a registered handler is awaited under wait_for with the
default timeout of five seconds; when the timeout expires the call is
cancelled, the server state is untouched, and the read loop carries on
with the frames that follow on the same connection. -/
theorem C5_timeout_bounded_dispatch (registry : String → Bool)
    (houtcome : String → HOutcome) (parse : List Nat → Option JValue)
    (s : LoopState) (stream f rest text : List Nat) (v : JValue) (nm : String)
    (ha : s.alive = true)
    (hr : readuntil stream = some (f, rest))
    (hdec : asciiDecode f = some text)
    (hp : parse text = some v)
    (hty : jGetItem v typeKey = Except.ok (JValue.str nm))
    (hnm : nm ≠ terminateLit)
    (hreg : registry nm = true)
    (hout : houtcome nm = HOutcome.timeout) :
    REQUEST_TIMEOUT = 5 ∧
    AServer.processFrame registry houtcome parse s f = (s, timeoutTrace nm) ∧
    AServer.runLoop registry houtcome parse s stream =
      ((AServer.runLoop registry houtcome parse s rest).1,
        (f, timeoutTrace nm) :: (AServer.runLoop registry houtcome parse s rest).2) := by
  have hpf : AServer.processFrame registry houtcome parse s f = (s, timeoutTrace nm) := by
    simp only [AServer.processFrame, hdec, hp, hty, isTerminateType, dictGet, hreg, hout,
      if_true, timeoutTrace]
    rw [if_neg (by simpa using hnm)]
  refine ⟨rfl, hpf, ?_⟩
  rw [runLoop_step registry houtcome parse s stream f rest ha hr, hpf]

/-- C5 witness at one concrete stream of two frames whose first
dispatch times out and whose second is then still read. -/
theorem C5_timeout_witness :
    REQUEST_TIMEOUT = 5 ∧
    AServer.processFrame pingOnly (fun _ => HOutcome.timeout)
        (fun _ => some pingObj) sInit [13, 10] = (sInit, timeoutTrace ("ping")) ∧
    AServer.runLoop pingOnly (fun _ => HOutcome.timeout)
        (fun _ => some pingObj) sInit [13, 10, 13, 10] =
      ((AServer.runLoop pingOnly (fun _ => HOutcome.timeout)
          (fun _ => some pingObj) sInit [13, 10]).1,
        ([13, 10], timeoutTrace ("ping")) ::
          (AServer.runLoop pingOnly (fun _ => HOutcome.timeout)
            (fun _ => some pingObj) sInit [13, 10]).2) :=
  C5_timeout_bounded_dispatch pingOnly (fun _ => HOutcome.timeout)
    (fun _ => some pingObj) sInit [13, 10, 13, 10] [13, 10] [13, 10] [13, 10]
    pingObj ("ping") rfl (by decide) rfl rfl rfl (by decide) rfl rfl

/-- C6: a handler call that raises has its exception caught and
discarded by the bare except of the dispatch loop: the server state is
untouched and the read loop carries on with the frames that follow. -/
theorem C6_handler_exception_swallowed (registry : String → Bool)
    (houtcome : String → HOutcome) (parse : List Nat → Option JValue)
    (s : LoopState) (stream f rest text : List Nat) (v : JValue) (nm : String)
    (ha : s.alive = true)
    (hr : readuntil stream = some (f, rest))
    (hdec : asciiDecode f = some text)
    (hp : parse text = some v)
    (hty : jGetItem v typeKey = Except.ok (JValue.str nm))
    (hnm : nm ≠ terminateLit)
    (hreg : registry nm = true)
    (hout : houtcome nm = HOutcome.raise) :
    AServer.processFrame registry houtcome parse s f = (s, dispatchTrace nm) ∧
    (AServer.processFrame registry houtcome parse s f).1.alive = s.alive ∧
    AServer.runLoop registry houtcome parse s stream =
      ((AServer.runLoop registry houtcome parse s rest).1,
        (f, dispatchTrace nm) :: (AServer.runLoop registry houtcome parse s rest).2) := by
  have hpf : AServer.processFrame registry houtcome parse s f = (s, dispatchTrace nm) := by
    simp only [AServer.processFrame, hdec, hp, hty, isTerminateType, dictGet, hreg, hout,
      if_true, dispatchTrace]
    rw [if_neg (by simpa using hnm)]
  refine ⟨hpf, by rw [hpf], ?_⟩
  rw [runLoop_step registry houtcome parse s stream f rest ha hr, hpf]

/-- C6 witness at one concrete stream of two frames whose first
dispatch raises and whose second is then still read. -/
theorem C6_handler_exception_witness :
    AServer.processFrame pingOnly (fun _ => HOutcome.raise)
        (fun _ => some pingObj) sInit [13, 10] = (sInit, dispatchTrace ("ping")) ∧
    (AServer.processFrame pingOnly (fun _ => HOutcome.raise)
        (fun _ => some pingObj) sInit [13, 10]).1.alive = sInit.alive ∧
    AServer.runLoop pingOnly (fun _ => HOutcome.raise)
        (fun _ => some pingObj) sInit [13, 10, 13, 10] =
      ((AServer.runLoop pingOnly (fun _ => HOutcome.raise)
          (fun _ => some pingObj) sInit [13, 10]).1,
        ([13, 10], dispatchTrace ("ping")) ::
          (AServer.runLoop pingOnly (fun _ => HOutcome.raise)
            (fun _ => some pingObj) sInit [13, 10]).2) :=
  C6_handler_exception_swallowed pingOnly (fun _ => HOutcome.raise)
    (fun _ => some pingObj) sInit [13, 10, 13, 10] [13, 10] [13, 10] [13, 10]
    pingObj ("ping") rfl (by decide) rfl rfl rfl (by decide) rfl rfl

/-- C7: a frame that does not decode as ascii, or whose text does not
parse as JSON, or whose parsed value has no usable string type field,
or whose type names no registered handler, is silently discarded: the
server state is unchanged, no handler is invoked, no reply is sent,
the liveness flag keeps its value, and the loop goes on. -/
theorem C7_malformed_discarded (registry : String → Bool)
    (houtcome : String → HOutcome) (parse : List Nat → Option JValue)
    (s : LoopState) (f : List Nat)
    (h : asciiDecode f = none
      ∨ (∃ text, asciiDecode f = some text ∧ parse text = none)
      ∨ (∃ text v, asciiDecode f = some text ∧ parse text = some v ∧
          jGetItem v typeKey = Except.error ())
      ∨ (∃ text v tv, asciiDecode f = some text ∧ parse text = some v ∧
          jGetItem v typeKey = Except.ok tv ∧ tv.asString = none)
      ∨ (∃ text v nm, asciiDecode f = some text ∧ parse text = some v ∧
          jGetItem v typeKey = Except.ok (JValue.str nm) ∧ nm ≠ terminateLit ∧
          registry nm = false)) :
    AServer.processFrame registry houtcome parse s f = (s, {}) ∧
    (AServer.processFrame registry houtcome parse s f).2.invoked = none ∧
    (AServer.processFrame registry houtcome parse s f).2.replied = false ∧
    (AServer.processFrame registry houtcome parse s f).1.alive = s.alive := by
  have hm : AServer.processFrame registry houtcome parse s f = (s, {}) := by
    rcases h with h0 | ⟨t, h1, h2⟩ | ⟨t, v, h1, h2, h3⟩ | ⟨t, v, tv, h1, h2, h3, h4⟩ |
      ⟨t, v, nm, h1, h2, h3, h4, h5⟩
    · simp only [AServer.processFrame, h0]
    · simp only [AServer.processFrame, h1, h2]
    · simp only [AServer.processFrame, h1, h2, h3]
    · cases tv with
      | str s' => simp [JValue.asString] at h4
      | null => simp only [AServer.processFrame, h1, h2, h3, isTerminateType, dictGet,
          Bool.false_eq_true, if_false]
      | bool b => simp only [AServer.processFrame, h1, h2, h3, isTerminateType, dictGet,
          Bool.false_eq_true, if_false]
      | num n => simp only [AServer.processFrame, h1, h2, h3, isTerminateType, dictGet,
          Bool.false_eq_true, if_false]
      | arr xs => simp only [AServer.processFrame, h1, h2, h3, isTerminateType, dictGet,
          Bool.false_eq_true, if_false]
      | obj fs => simp only [AServer.processFrame, h1, h2, h3, isTerminateType, dictGet,
          Bool.false_eq_true, if_false]
    · simp only [AServer.processFrame, h1, h2, h3, isTerminateType, dictGet, h5,
        Bool.false_eq_true, if_false]
      rw [if_neg (by simpa using h4)]
  exact ⟨hm, by rw [hm], by rw [hm], by rw [hm]⟩

/-- C7 witness at a concrete frame whose text fails JSON parsing. -/
theorem C7_malformed_witness :
    AServer.processFrame pingOnly (fun _ => HOutcome.ok) (fun _ => none)
        sInit [110, 111] = (sInit, {}) ∧
    (AServer.processFrame pingOnly (fun _ => HOutcome.ok) (fun _ => none)
        sInit [110, 111]).2.invoked = none ∧
    (AServer.processFrame pingOnly (fun _ => HOutcome.ok) (fun _ => none)
        sInit [110, 111]).2.replied = false ∧
    (AServer.processFrame pingOnly (fun _ => HOutcome.ok) (fun _ => none)
        sInit [110, 111]).1.alive = sInit.alive :=
  C7_malformed_discarded pingOnly (fun _ => HOutcome.ok) (fun _ => none)
    sInit [110, 111] (Or.inr (Or.inl ⟨[110, 111], rfl, rfl⟩))

/-- C8: when readuntil fails (reset, or closure before a delimiter),
the except clause of handle_connection ends the read loop, clears the
writer reference, and hands back a normally returning coroutine: the
liveness flag and the rest of the server state are untouched, so the
server and the other sessions never see the error. -/
theorem C8_conn_error_local (registry : String → Bool)
    (houtcome : String → HOutcome) (parse : List Nat → Option JValue)
    (s : LoopState) (stream : List Nat)
    (ha : s.alive = true) (he : readuntil stream = none) :
    AServer.runLoop registry houtcome parse s stream = (AServer.onConnError s, []) ∧
    (AServer.onConnError s).writer = none ∧
    (AServer.onConnError s).alive = s.alive ∧
    (AServer.onConnError s).loopStopped = s.loopStopped ∧
    (AServer.onConnError s).exitCalled = s.exitCalled :=
  ⟨runLoop_eof registry houtcome parse s stream ha he, rfl, rfl, rfl, rfl⟩

/-- C8 witness at a concrete stream that closes before a delimiter. -/
theorem C8_conn_error_witness :
    AServer.runLoop pingOnly (fun _ => HOutcome.ok) (fun _ => none) sInit [104] =
      (AServer.onConnError sInit, []) ∧
    (AServer.onConnError sInit).writer = none ∧
    (AServer.onConnError sInit).alive = sInit.alive ∧
    (AServer.onConnError sInit).loopStopped = sInit.loopStopped ∧
    (AServer.onConnError sInit).exitCalled = sInit.exitCalled :=
  C8_conn_error_local pingOnly (fun _ => HOutcome.ok) (fun _ => none)
    sInit [104] rfl rfl

/-- C9: with a writer attached, a failing drain still leaves the
escaped message already submitted to the transport while write returns
false; only the case of no attached writer returns false with nothing
submitted. -/
theorem C9_write_nonatomic (s : LoopState) (message : String)
    (h : s.writer ≠ none) :
    AServer.write s message DrainResult.fail = (false, some (escapePercent message)) ∧
    AServer.write { s with writer := none } message DrainResult.fail = (false, none) := by
  unfold AServer.write
  simp [h]

/-- C9 witness at a concrete state and message. -/
theorem C9_write_nonatomic_witness :
    AServer.write sInit ("50% off") DrainResult.fail =
      (false, some (escapePercent ("50% off"))) ∧
    AServer.write { sInit with writer := none } ("50% off") DrainResult.fail =
      (false, none) :=
  C9_write_nonatomic sInit ("50% off") (by simp [sInit])

/-- C10: the writer reference lives once on the server object and is
shared by all connections: attaching a second accepted connection
overwrites the reference of the first, every handle_connection run
starts by attaching its own writer to that shared slot, and the
connection error path clears the shared slot unconditionally, also
when it was last set by a different connection. -/
theorem C10_shared_writer (registry : String → Bool)
    (houtcome : String → HOutcome) (parse : List Nat → Option JValue)
    (s : LoopState) (stream : List Nat) (w1 w2 : Nat) (h : w1 ≠ w2) :
    (AServer.attachWriter (AServer.attachWriter s w1) w2).writer = some w2 ∧
    (AServer.attachWriter (AServer.attachWriter s w1) w2).writer ≠ some w1 ∧
    (AServer.onConnError (AServer.attachWriter (AServer.attachWriter s w1) w2)).writer
      = none ∧
    AServer.handle_connection registry houtcome parse s w2 stream =
      AServer.runLoop registry houtcome parse (AServer.attachWriter s w2) stream := by
  refine ⟨rfl, ?_, rfl, rfl⟩
  simp only [AServer.attachWriter, Option.some.injEq, ne_eq]
  exact fun hh => h (hh.symm)

/-- C10 witness at two concrete distinct connections. -/
theorem C10_shared_writer_witness :
    (AServer.attachWriter (AServer.attachWriter sInit 1) 2).writer = some 2 ∧
    (AServer.attachWriter (AServer.attachWriter sInit 1) 2).writer ≠ some 1 ∧
    (AServer.onConnError (AServer.attachWriter (AServer.attachWriter sInit 1) 2)).writer
      = none ∧
    AServer.handle_connection pingOnly (fun _ => HOutcome.ok) (fun _ => none)
        sInit 2 [104] =
      AServer.runLoop pingOnly (fun _ => HOutcome.ok) (fun _ => none)
        (AServer.attachWriter sInit 2) [104] :=
  C10_shared_writer pingOnly (fun _ => HOutcome.ok) (fun _ => none)
    sInit [104] 1 2 (by decide)
